import Mathlib

/-!
Verification of the `set-my-stack` CLI scaffolder (`src/bin/index.js`).

The program is a sequential Node script: it prompts for a project name and a
template choice, computes `projectPath = path.join(process.cwd(), projectName)`,
creates the project directory, writes `package.json`, creates the fixed
sub-directory set and boilerplate files, runs `git init` and writes
`.gitignore`, then runs `npm install`, finally printing a success message
(normal exit, code 0) or, on an uncaught error, a failure message and
`process.exit(1)`.

Shallow embedding used here:

* Filesystem paths are segment lists (`Path := List String`); `pathJoin`
  mirrors Node's `path.join` segment splitting on `/` with empty segments
  dropped (so `path.join(cwd, "") = cwd`).
* The filesystem is a record of the directories ensured to exist and the file
  writes performed; a later write shadows an earlier one at the same path
  (`lookupFile` returns the newest), which models "create or overwrite".
* Every fallible external effect (an `fs` call or a spawned subprocess) is
  given a success/failure outcome by an `Oracles` record, one field per
  call site (grouped per step where all failures of the step propagate
  identically).  An uncaught failure is modelled with `Except.error`, which
  the orchestrator's top-level `try/catch` turns into the failure result.
* Filesystem side effects performed by the spawned subprocesses themselves
  (`git init` creating `.git`, `npm install` creating `node_modules`) are
  outside the program's own writes and are not modelled.
* The manifest file's content is modelled as the structured `PackageJson`
  record it serializes (`JSON.stringify` of the literal object); the other
  generated files carry their verbatim text.
-/

namespace SetMyStack

/-- A filesystem path, as the list of its `/`-separated segments. -/
abbrev Path := List String

/-- Split a character list at `/` separators (segments as character lists). -/
def splitSlashChars : List Char → List (List Char)
  | [] => [[]]
  | c :: cs =>
    let rest := splitSlashChars cs
    if c = '/' then [] :: rest
    else
      match rest with
      | [] => [[c]]
      | s :: ss => (c :: s) :: ss

/-- The segments of a path string: split on `/`, empty segments dropped,
exactly as Node's `path.join` normalization treats each argument. -/
def pathSegments (s : String) : List String :=
  ((splitSlashChars s.data).map (fun cs => String.mk cs)).filter (fun t => t ≠ "")

/-- Model of `path.join(p, s)`: append the (normalized) segments of `s` to `p`. -/
def pathJoin (p : Path) (s : String) : Path :=
  p ++ pathSegments s

/-- The `scripts` object of the manifest literal (index.js lines 29-34). -/
structure Scripts where
  dev : String
  build : String
  start : String
  lint : String
deriving DecidableEq, Repr

/-- The manifest object built by `createPackageJson` (index.js lines 25-48). -/
structure PackageJson where
  name : String
  version : String
  «private» : Bool
  scripts : Scripts
  dependencies : List (String × String)
  devDependencies : List (String × String)
deriving DecidableEq, Repr

/-- Content of a file written by the program: the serialized manifest object,
or verbatim text. -/
inductive FileContent where
  | pkg (manifest : PackageJson)
  | text (s : String)
deriving DecidableEq, Repr

/-- The filesystem state the program manipulates: the set of directories it
has ensured exist (as a membership list) and the file writes it has performed,
newest first (a later write at the same path shadows the older one). -/
structure FS where
  dirs : List Path
  files : List (Path × FileContent)
deriving DecidableEq, Repr

/-- The empty filesystem (a fresh invocation directory). -/
def emptyFS : FS := ⟨[], []⟩

/-- All nonempty prefixes of a path: the path itself and its ancestors. -/
def pathPrefixes (p : Path) : List Path :=
  (List.range p.length).map (fun i => p.take (i + 1))

/-- Model of `fs.mkdir(p, { recursive: true })`: ensure `p` and all its ancestors
exist; idempotent when they already do (existence is list membership). -/
def mkdirRec (fs : FS) (p : Path) : FS :=
  { fs with dirs := pathPrefixes p ++ fs.dirs }

/-- Model of `fs.writeFile(p, c)`: create or overwrite the file at `p` with content `c`
taken verbatim (the newest entry shadows older ones at the same path). -/
def writeFileFS (fs : FS) (p : Path) (c : FileContent) : FS :=
  { fs with files := (p, c) :: fs.files }

/-- The current content of the file at `p`, if any (newest write wins). -/
def lookupFile (fs : FS) (p : Path) : Option FileContent :=
  (fs.files.find? (fun e => decide (e.1 = p))).map (fun e => e.2)

/-- Success/failure outcome of each fallible external effect of one run,
one field per call site (grouped per step where all of the step's failures
propagate identically to the same handler). -/
structure Oracles where
  /-- outcome of `fs.mkdir` inside `createProjectDirectory` (caught locally). -/
  mkdirOk : Bool
  /-- the `fs.writeFile` of `package.json` (uncaught). -/
  pkgWriteOk : Bool
  /-- the `fs.mkdir`/`fs.writeFile` calls of `createProjectFiles` (uncaught). -/
  filesOk : Bool
  /-- outcome of `execSync('git init')` (caught inside `initializeGit`). -/
  gitInitOk : Bool
  /-- the `fs.writeFile` of `.gitignore` (caught inside `initializeGit`). -/
  gitignoreOk : Bool
  /-- outcome of `execSync('npm install')` (uncaught). -/
  npmOk : Bool
deriving DecidableEq, Repr

/-- The run in which every external effect succeeds. -/
def allOk : Oracles := ⟨true, true, true, true, true, true⟩

/-- The three fixed template choices offered by prompt 2 (index.js 173-177). -/
inductive Template where
  | defaultTypeScript
  | withTailwind
  | basicJavaScript
deriving DecidableEq, Repr

/-- Model of `createProjectDirectory` (index.js 14-22): `mkdir` recursive inside
`try/catch`; on failure the error is logged and `false` is returned — it
never throws.  Second component is the returned boolean. -/
def createProjectDirectory (o : Oracles) (fs : FS) (projectPath : Path) : FS × Bool :=
  if o.mkdirOk then (mkdirRec fs projectPath, true) else (fs, false)

/-- The manifest object literal of `createPackageJson` (index.js 25-48). -/
def packageJsonFor (projectName : String) : PackageJson :=
  { name := projectName
    version := "0.1.0"
    «private» := true
    scripts :=
      { dev := "next dev"
        build := "next build"
        start := "next start"
        lint := "next lint" }
    dependencies :=
      [("next", "14.1.0"), ("react", "^18.2.0"), ("react-dom", "^18.2.0")]
    devDependencies :=
      [("@types/node", "^20.11.0"), ("@types/react", "^18.2.0"),
       ("@types/react-dom", "^18.2.0"), ("typescript", "^5.3.0"),
       ("eslint", "^8.56.0"), ("eslint-config-next", "14.1.0")] }

/-- Model of `createPackageJson` (index.js 24-54): one uncaught `fs.writeFile` of the
serialized manifest to `path.join(projectPath, 'package.json')`; a failure
propagates to the caller (`Except.error`). -/
def createPackageJson (o : Oracles) (fs : FS) (projectPath : Path)
    (projectName : String) : Except Unit FS :=
  if o.pkgWriteOk then
    .ok (writeFileFS fs (pathJoin projectPath "package.json")
      (.pkg (packageJsonFor projectName)))
  else .error ()

/-- The fixed sub-directory list of `createProjectFiles` (index.js 58-63). -/
def directories : List String :=
  ["public", "src/app", "src/components", "src/styles"]

/-- Layout boilerplate (index.js 70-81), braces escaped as `\x7b`/`\x7d`. -/
def layoutContent : String :=
  "\nexport default function RootLayout(\x7b\n  children,\n\x7d: \x7b\n  children: React.ReactNode\n\x7d) \x7b\n  return (\n    <html lang=\"en\">\n      <body>\x7bchildren\x7d</body>\n    </html>\n  )\n\x7d"

/-- Page boilerplate (index.js 83-90). -/
def pageContent : String :=
  "\nexport default function Home() \x7b\n  return (\n    <main>\n      <h1>Welcome to Next.js!</h1>\n    </main>\n  )\n\x7d"

/-- Global stylesheet boilerplate (index.js 92-103). -/
def globalCssContent : String :=
  "\n* \x7b\n  box-sizing: border-box;\n  padding: 0;\n  margin: 0;\n\x7d\n\nhtml,\nbody \x7b\n  max-width: 100vw;\n  overflow-x: hidden;\n\x7d"

/-- Ignore-file content written by `initializeGit` (index.js 113-146). -/
def gitignoreContent : String :=
  "\n# dependencies\n/node_modules\n/.pnp\n.pnp.js\n\n# testing\n/coverage\n\n# next.js\n/.next/\n/out/\n\n# production\n/build\n\n# misc\n.DS_Store\n*.pem\n\n# debug\nnpm-debug.log*\nyarn-debug.log*\nyarn-error.log*\n\n# local env files\n.env*.local\n\n# vercel\n.vercel\n\n# typescript\n*.tsbuildinfo\nnext-env.d.ts"

/-- Model of `createProjectFiles` (index.js 56-108): make the fixed sub-directories,
then write the layout, page, and stylesheet boilerplate; every call is
uncaught, so any failure propagates (`Except.error`). -/
def createProjectFiles (o : Oracles) (fs : FS) (projectPath : Path) : Except Unit FS :=
  if o.filesOk then
    let fs1 := directories.foldl (fun acc d => mkdirRec acc (pathJoin projectPath d)) fs
    let fs2 := writeFileFS fs1 (pathJoin projectPath "src/app/layout.tsx") (.text layoutContent)
    let fs3 := writeFileFS fs2 (pathJoin projectPath "src/app/page.tsx") (.text pageContent)
    .ok (writeFileFS fs3 (pathJoin projectPath "src/styles/globals.css") (.text globalCssContent))
  else .error ()

/-- Model of `initializeGit` (index.js 110-152): `try { execSync('git init'); write
.gitignore } catch (e) { log }` — the ignore-file write happens only after
`git init` succeeded, and any error inside is caught and logged.  Second
component records whether an error was caught and logged. -/
def initializeGit (o : Oracles) (fs : FS) (projectPath : Path) : FS × Bool :=
  if o.gitInitOk then
    if o.gitignoreOk then
      (writeFileFS fs (pathJoin projectPath ".gitignore") (.text gitignoreContent), false)
    else (fs, true)
  else (fs, true)

/-- Outcome of one run of the orchestrator. -/
structure RunResult where
  /-- the filesystem after the run -/
  fs : FS
  /-- the process exit code (0 on success, 1 via `process.exit(1)`) -/
  exitCode : Nat
  /-- whether the success message (`spinner.succeed`) was printed -/
  success : Bool
  /-- whether the failure message (`spinner.fail`) was printed -/
  failMsg : Bool
deriving DecidableEq, Repr

/-- The orchestrator `program.action` (index.js 154-215), from the point the
two prompt answers (`projectName`, `template`) are available: compute
`projectPath = path.join(process.cwd(), projectName)`, then inside
`try/catch` run the four scaffolding steps and `npm install`.  The boolean
returned by `createProjectDirectory` is ignored (the orchestrator never
checks it), `initializeGit` swallows its own errors, and an uncaught error
(`Except.error`) reaches the catch: failure message and exit code 1. -/
def programAction (o : Oracles) (fs0 : FS) (cwd : Path) (projectName : String)
    (template : Template) : RunResult :=
  let projectPath := pathJoin cwd projectName
  let fs1 := (createProjectDirectory o fs0 projectPath).1
  match createPackageJson o fs1 projectPath projectName with
  | .error _ => ⟨fs1, 1, false, true⟩
  | .ok fs2 =>
    match createProjectFiles o fs2 projectPath with
    | .error _ => ⟨fs2, 1, false, true⟩
    | .ok fs3 =>
      let fs4 := (initializeGit o fs3 projectPath).1
      if o.npmOk then ⟨fs4, 0, true, false⟩ else ⟨fs4, 1, false, true⟩

/-! ### Basic lemmas about the filesystem model -/

theorem lookupFile_write_same (fs : FS) (p : Path) (c : FileContent) :
    lookupFile (writeFileFS fs p c) p = some c := by
  simp [lookupFile, writeFileFS]

theorem lookupFile_write_other (fs : FS) (p q : Path) (c : FileContent) (h : q ≠ p) :
    lookupFile (writeFileFS fs q c) p = lookupFile fs p := by
  simp [lookupFile, writeFileFS, List.find?, h]

@[simp] theorem pathSegments_empty : pathSegments "" = [] := by decide

@[simp] theorem pathSegments_packageJson :
    pathSegments "package.json" = ["package.json"] := by decide

@[simp] theorem pathSegments_gitignore :
    pathSegments ".gitignore" = [".gitignore"] := by decide

@[simp] theorem pathSegments_public : pathSegments "public" = ["public"] := by decide

@[simp] theorem pathSegments_srcApp : pathSegments "src/app" = ["src", "app"] := by decide

@[simp] theorem pathSegments_srcComponents :
    pathSegments "src/components" = ["src", "components"] := by decide

@[simp] theorem pathSegments_srcStyles :
    pathSegments "src/styles" = ["src", "styles"] := by decide

@[simp] theorem pathSegments_layout :
    pathSegments "src/app/layout.tsx" = ["src", "app", "layout.tsx"] := by decide

@[simp] theorem pathSegments_page :
    pathSegments "src/app/page.tsx" = ["src", "app", "page.tsx"] := by decide

@[simp] theorem pathSegments_globalsCss :
    pathSegments "src/styles/globals.css" = ["src", "styles", "globals.css"] := by decide

/-- Fact: `createProjectDirectory` never touches the file table, only `dirs`. -/
@[simp] theorem createProjectDirectory_fst_files (o : Oracles) (fs : FS) (p : Path) :
    ((createProjectDirectory o fs p).1).files = fs.files := by
  cases hm : o.mkdirOk <;> simp [createProjectDirectory, mkdirRec, hm]

/-- Membership in `pathPrefixes`: exactly the nonempty prefixes. -/
theorem mem_pathPrefixes {q l : Path} : q ∈ pathPrefixes l ↔ q <+: l ∧ q ≠ [] := by
  constructor
  · intro h
    obtain ⟨i, hi, rfl⟩ := List.mem_map.mp h
    have hi' : i < l.length := List.mem_range.mp hi
    refine ⟨⟨l.drop (i + 1), List.take_append_drop _ _⟩, ?_⟩
    intro hnil
    have hlen : (l.take (i + 1)).length = 0 := by rw [hnil]; rfl
    rw [List.length_take] at hlen
    omega
  · rintro ⟨hpre, hne⟩
    have hlen : q.length ≤ l.length := hpre.length_le
    have hpos : 0 < q.length := List.length_pos.mpr hne
    have htake : q = l.take q.length := List.prefix_iff_eq_take.mp hpre
    refine List.mem_map.mpr ⟨q.length - 1, List.mem_range.mpr (by omega), ?_⟩
    rw [Nat.sub_add_cancel hpos]
    exact htake.symm

/-- The directory list after a run whose manifest and file-creation steps
succeed: the target's sub-directory trees, on top of whatever
`createProjectDirectory` left (git/npm never touch `dirs`). -/
theorem programAction_dirs (o : Oracles) (fs0 : FS) (cwd : Path)
    (projectName : String) (t : Template) (hpkg : o.pkgWriteOk = true)
    (hfiles : o.filesOk = true) :
    (programAction o fs0 cwd projectName t).fs.dirs =
      pathPrefixes (pathJoin cwd projectName ++ ["src", "styles"]) ++
        (pathPrefixes (pathJoin cwd projectName ++ ["src", "components"]) ++
          (pathPrefixes (pathJoin cwd projectName ++ ["src", "app"]) ++
            (pathPrefixes (pathJoin cwd projectName ++ ["public"]) ++
              (createProjectDirectory o fs0 (pathJoin cwd projectName)).1.dirs))) := by
  cases hg : o.gitInitOk <;> cases hi : o.gitignoreOk <;> cases hn : o.npmOk <;>
    simp [programAction, createPackageJson, createProjectFiles, initializeGit,
      directories, pathJoin, hpkg, hfiles, hg, hi, hn, writeFileFS, mkdirRec]

/-- The file table after a run whose manifest and file-creation steps
succeed: the `.gitignore` entry exactly when the version-control step fully
succeeded, on top of the four writes, on top of the initial state. -/
theorem programAction_files (o : Oracles) (fs0 : FS) (cwd : Path)
    (projectName : String) (t : Template) (hpkg : o.pkgWriteOk = true)
    (hfiles : o.filesOk = true) :
    (programAction o fs0 cwd projectName t).fs.files =
      (if o.gitInitOk = true ∧ o.gitignoreOk = true then
        [(pathJoin cwd projectName ++ [".gitignore"], FileContent.text gitignoreContent)]
      else []) ++
      ((pathJoin cwd projectName ++ ["src", "styles", "globals.css"],
          FileContent.text globalCssContent) ::
        (pathJoin cwd projectName ++ ["src", "app", "page.tsx"],
          FileContent.text pageContent) ::
        (pathJoin cwd projectName ++ ["src", "app", "layout.tsx"],
          FileContent.text layoutContent) ::
        (pathJoin cwd projectName ++ ["package.json"],
          FileContent.pkg (packageJsonFor projectName)) :: fs0.files) := by
  cases hg : o.gitInitOk <;> cases hi : o.gitignoreOk <;> cases hn : o.npmOk <;>
    simp [programAction, createPackageJson, createProjectFiles, initializeGit,
      directories, pathJoin, hpkg, hfiles, hg, hi, hn, writeFileFS, mkdirRec]

/-! ### Claims -/

/-- C2: two runs that differ only in the template choice collected at prompt 2
produce identical results — the same generated file set with the same
contents, the same filesystem, exit code and messages; the template choice is
collected but never read again (index.js 168-215). -/
theorem template_choice_has_no_effect (o : Oracles) (fs0 : FS) (cwd : Path)
    (projectName : String) (t1 t2 : Template) :
    programAction o fs0 cwd projectName t1 = programAction o fs0 cwd projectName t2 := rfl

/-- C3: for every operator-supplied project name, the manifest written to
`package.json` is exactly the object whose `name` is that project name,
whose `version` is "0.1.0", whose `private` is `true`, whose `scripts` holds
the dev/build/start/lint commands, and whose `dependencies` and
`devDependencies` are the fixed constant maps of index.js 35-47; nothing but
the name depends on any input. -/
theorem manifest_name_and_fixed_maps (o : Oracles) (fs0 : FS) (cwd : Path)
    (projectName : String) (t : Template) (hpkg : o.pkgWriteOk = true) :
    (packageJsonFor projectName).name = projectName ∧
    (packageJsonFor projectName).version = "0.1.0" ∧
    (packageJsonFor projectName).«private» = true ∧
    (packageJsonFor projectName).scripts =
      ⟨"next dev", "next build", "next start", "next lint"⟩ ∧
    (packageJsonFor projectName).dependencies =
      [("next", "14.1.0"), ("react", "^18.2.0"), ("react-dom", "^18.2.0")] ∧
    (packageJsonFor projectName).devDependencies =
      [("@types/node", "^20.11.0"), ("@types/react", "^18.2.0"),
       ("@types/react-dom", "^18.2.0"), ("typescript", "^5.3.0"),
       ("eslint", "^8.56.0"), ("eslint-config-next", "14.1.0")] ∧
    lookupFile (programAction o fs0 cwd projectName t).fs
        (pathJoin cwd projectName ++ ["package.json"]) =
      some (.pkg (packageJsonFor projectName)) := by
  refine ⟨rfl, rfl, rfl, rfl, rfl, rfl, ?_⟩
  cases hf : o.filesOk <;> cases hg : o.gitInitOk <;> cases hi : o.gitignoreOk <;>
    cases hn : o.npmOk <;>
    simp [programAction, createProjectDirectory, createPackageJson, createProjectFiles,
      initializeGit, directories, pathJoin, hpkg, hf, hg, hi, hn,
      lookupFile, writeFileFS, mkdirRec, List.find?]

/-- C3 witness: the theorem instantiated at the default project name in a
fresh directory with every effect succeeding. -/
theorem manifest_name_and_fixed_maps_witness :
    lookupFile (programAction allOk emptyFS ["home", "user"] "my-next-app"
        Template.defaultTypeScript).fs
        (pathJoin ["home", "user"] "my-next-app" ++ ["package.json"]) =
      some (.pkg (packageJsonFor "my-next-app")) :=
  (manifest_name_and_fixed_maps allOk emptyFS ["home", "user"] "my-next-app"
    Template.defaultTypeScript rfl).2.2.2.2.2.2

/-- C5: when creating the target project directory fails, the failure is
caught inside `createProjectDirectory`, logged, and surfaced only as the
returned boolean `false` (never a throw); the orchestrator ignores that
boolean and proceeds to write the manifest and every subsequent step, and
when those succeed the run still ends in the success state with exit code 0 —
this failure alone never forces a non-zero exit. -/
theorem mkdir_failure_swallowed (o : Oracles) (fs0 : FS) (cwd : Path)
    (projectName : String) (t : Template) (hm : o.mkdirOk = false)
    (hpkg : o.pkgWriteOk = true) (hfiles : o.filesOk = true)
    (hgit : o.gitInitOk = true) (hign : o.gitignoreOk = true)
    (hnpm : o.npmOk = true) :
    createProjectDirectory o fs0 (pathJoin cwd projectName) = (fs0, false) ∧
    (programAction o fs0 cwd projectName t).success = true ∧
    (programAction o fs0 cwd projectName t).exitCode = 0 ∧
    (programAction o fs0 cwd projectName t).failMsg = false ∧
    lookupFile (programAction o fs0 cwd projectName t).fs
        (pathJoin cwd projectName ++ ["package.json"]) =
      some (.pkg (packageJsonFor projectName)) ∧
    lookupFile (programAction o fs0 cwd projectName t).fs
        (pathJoin cwd projectName ++ ["src", "app", "layout.tsx"]) =
      some (.text layoutContent) ∧
    lookupFile (programAction o fs0 cwd projectName t).fs
        (pathJoin cwd projectName ++ [".gitignore"]) =
      some (.text gitignoreContent) := by
  refine ⟨by simp [createProjectDirectory, hm], ?_, ?_, ?_, ?_, ?_, ?_⟩ <;>
    simp [programAction, createProjectDirectory, createPackageJson, createProjectFiles,
      initializeGit, directories, pathJoin, hm, hpkg, hfiles, hgit, hign, hnpm,
      lookupFile, writeFileFS, mkdirRec, List.find?]

/-- C5 witness: a concrete run in which only directory creation fails and
everything afterwards succeeds. -/
theorem mkdir_failure_swallowed_witness :
    (programAction ⟨false, true, true, true, true, true⟩ emptyFS ["home", "user"]
        "my-next-app" Template.defaultTypeScript).exitCode = 0 :=
  (mkdir_failure_swallowed ⟨false, true, true, true, true, true⟩ emptyFS
    ["home", "user"] "my-next-app" Template.defaultTypeScript
    rfl rfl rfl rfl rfl rfl).2.2.1

/-- C6: when `git init` exits non-zero the error is caught and logged inside
`initializeGit` (which leaves the filesystem untouched and reports a logged
error), and the run's terminal outcome — exit code, success message, failure
message — is exactly what it would have been had version-control
initialization succeeded. -/
theorem gitInit_failure_swallowed (o : Oracles) (fs0 fs : FS) (cwd : Path)
    (projectName : String) (t : Template) (projectPath : Path) :
    initializeGit { o with gitInitOk := false } fs projectPath = (fs, true) ∧
    (programAction { o with gitInitOk := false } fs0 cwd projectName t).exitCode
      = (programAction { o with gitInitOk := true } fs0 cwd projectName t).exitCode ∧
    (programAction { o with gitInitOk := false } fs0 cwd projectName t).success
      = (programAction { o with gitInitOk := true } fs0 cwd projectName t).success ∧
    (programAction { o with gitInitOk := false } fs0 cwd projectName t).failMsg
      = (programAction { o with gitInitOk := true } fs0 cwd projectName t).failMsg := by
  refine ⟨by simp [initializeGit], ?_, ?_, ?_⟩ <;>
    cases hp : o.pkgWriteOk <;> cases hf : o.filesOk <;> cases hn : o.npmOk <;>
      simp [programAction, createProjectDirectory, createPackageJson,
        createProjectFiles, initializeGit, hp, hf, hn]

/-- C9: in every run that writes the project files, and for every template
choice — including the "Basic Next.js (JavaScript)" option — the generated
source files are written at `src/app/layout.tsx` and `src/app/page.tsx`
(TypeScript extension), and no path other than the five fixed ones is ever
written. -/
theorem generated_sources_always_tsx (o : Oracles) (fs0 : FS) (cwd : Path)
    (projectName : String) (t : Template) (hpkg : o.pkgWriteOk = true)
    (hfiles : o.filesOk = true) :
    (pathJoin cwd projectName ++ ["src", "app", "layout.tsx"],
      FileContent.text layoutContent) ∈ (programAction o fs0 cwd projectName t).fs.files ∧
    (pathJoin cwd projectName ++ ["src", "app", "page.tsx"],
      FileContent.text pageContent) ∈ (programAction o fs0 cwd projectName t).fs.files ∧
    (∀ p c, (p, c) ∈ (programAction o fs0 cwd projectName t).fs.files →
      (p, c) ∈ fs0.files ∨
        p ∈ [pathJoin cwd projectName ++ ["package.json"],
             pathJoin cwd projectName ++ ["src", "app", "layout.tsx"],
             pathJoin cwd projectName ++ ["src", "app", "page.tsx"],
             pathJoin cwd projectName ++ ["src", "styles", "globals.css"],
             pathJoin cwd projectName ++ [".gitignore"]]) := by
  refine ⟨?_, ?_, ?_⟩ <;>
    cases hg : o.gitInitOk <;> cases hi : o.gitignoreOk <;> cases hn : o.npmOk <;>
      simp [programAction, createPackageJson, createProjectFiles,
        initializeGit, directories, pathJoin, hpkg, hfiles, hg, hi, hn,
        writeFileFS, mkdirRec] <;>
      tauto

/-- C9 witness: the JavaScript template choice still writes `.tsx` sources. -/
theorem generated_sources_always_tsx_witness :
    (pathJoin ["home", "user"] "my-next-app" ++ ["src", "app", "layout.tsx"],
      FileContent.text layoutContent) ∈
      (programAction allOk emptyFS ["home", "user"] "my-next-app"
        Template.basicJavaScript).fs.files :=
  (generated_sources_always_tsx allOk emptyFS ["home", "user"] "my-next-app"
    Template.basicJavaScript rfl rfl).1

/-- C10: with an empty project name the computed target path
`path.join(cwd, "")` is the invocation directory itself, so the run
scaffolds the manifest, the sub-directories, the boilerplate files and the
ignore-file directly into the invocation directory. -/
theorem empty_name_scaffolds_into_cwd (o : Oracles) (fs0 : FS) (cwd : Path)
    (t : Template) (hpkg : o.pkgWriteOk = true) (hfiles : o.filesOk = true)
    (hgit : o.gitInitOk = true) (hign : o.gitignoreOk = true) :
    pathJoin cwd "" = cwd ∧
    lookupFile (programAction o fs0 cwd "" t).fs (cwd ++ ["package.json"]) =
      some (.pkg (packageJsonFor "")) ∧
    lookupFile (programAction o fs0 cwd "" t).fs (cwd ++ ["src", "app", "layout.tsx"]) =
      some (.text layoutContent) ∧
    lookupFile (programAction o fs0 cwd "" t).fs (cwd ++ [".gitignore"]) =
      some (.text gitignoreContent) ∧
    cwd ++ ["public"] ∈ (programAction o fs0 cwd "" t).fs.dirs ∧
    cwd ++ ["src", "app"] ∈ (programAction o fs0 cwd "" t).fs.dirs := by
  refine ⟨by simp [pathJoin], ?_, ?_, ?_, ?_, ?_⟩
  · cases hn : o.npmOk <;>
      simp [programAction, createPackageJson, createProjectFiles,
        initializeGit, directories, pathJoin, hpkg, hfiles, hgit, hign, hn,
        lookupFile, writeFileFS, mkdirRec, List.find?]
  · cases hn : o.npmOk <;>
      simp [programAction, createPackageJson, createProjectFiles,
        initializeGit, directories, pathJoin, hpkg, hfiles, hgit, hign, hn,
        lookupFile, writeFileFS, mkdirRec, List.find?]
  · cases hn : o.npmOk <;>
      simp [programAction, createPackageJson, createProjectFiles,
        initializeGit, directories, pathJoin, hpkg, hfiles, hgit, hign, hn,
        lookupFile, writeFileFS, mkdirRec, List.find?]
  · rw [programAction_dirs o fs0 cwd "" t hpkg hfiles]
    refine List.mem_append_right _ (List.mem_append_right _ (List.mem_append_right _
      (List.mem_append_left _ ?_)))
    exact mem_pathPrefixes.mpr ⟨by simp [pathJoin], by simp⟩
  · rw [programAction_dirs o fs0 cwd "" t hpkg hfiles]
    refine List.mem_append_right _ (List.mem_append_right _
      (List.mem_append_left _ ?_))
    exact mem_pathPrefixes.mpr ⟨by simp [pathJoin], by simp⟩

/-- C10 witness: a concrete fully-successful run with the empty name. -/
theorem empty_name_scaffolds_into_cwd_witness :
    lookupFile (programAction allOk emptyFS ["home", "user"] ""
        Template.defaultTypeScript).fs (["home", "user"] ++ ["package.json"]) =
      some (.pkg (packageJsonFor "")) :=
  (empty_name_scaffolds_into_cwd allOk emptyFS ["home", "user"]
    Template.defaultTypeScript rfl rfl rfl rfl).2.1

/-- C4: when `npm install` exits non-zero, the top-level catch prints the
failure message and exits with code 1, and nothing written by the earlier
steps of the run — neither pre-existing entries nor the directories and
files the run itself created — is removed (there is no rollback). -/
theorem npm_failure_exit1_no_rollback (o : Oracles) (fs0 : FS) (cwd : Path)
    (projectName : String) (t : Template) (hpkg : o.pkgWriteOk = true)
    (hfiles : o.filesOk = true) (hnpm : o.npmOk = false) :
    (programAction o fs0 cwd projectName t).exitCode = 1 ∧
    (programAction o fs0 cwd projectName t).failMsg = true ∧
    (programAction o fs0 cwd projectName t).success = false ∧
    (∀ d, d ∈ fs0.dirs → d ∈ (programAction o fs0 cwd projectName t).fs.dirs) ∧
    (∀ e, e ∈ fs0.files → e ∈ (programAction o fs0 cwd projectName t).fs.files) ∧
    (pathJoin cwd projectName ++ ["package.json"],
        FileContent.pkg (packageJsonFor projectName)) ∈
      (programAction o fs0 cwd projectName t).fs.files ∧
    (pathJoin cwd projectName ++ ["src", "app", "layout.tsx"],
        FileContent.text layoutContent) ∈
      (programAction o fs0 cwd projectName t).fs.files ∧
    (pathJoin cwd projectName ++ ["src", "app", "page.tsx"],
        FileContent.text pageContent) ∈
      (programAction o fs0 cwd projectName t).fs.files ∧
    (pathJoin cwd projectName ++ ["src", "styles", "globals.css"],
        FileContent.text globalCssContent) ∈
      (programAction o fs0 cwd projectName t).fs.files ∧
    (o.gitInitOk = true → o.gitignoreOk = true →
      (pathJoin cwd projectName ++ [".gitignore"],
          FileContent.text gitignoreContent) ∈
        (programAction o fs0 cwd projectName t).fs.files) := by
  have hfl := programAction_files o fs0 cwd projectName t hpkg hfiles
  have hdr := programAction_dirs o fs0 cwd projectName t hpkg hfiles
  refine ⟨?_, ?_, ?_, ?_, ?_, ?_, ?_, ?_, ?_, ?_⟩
  · simp [programAction, createPackageJson, createProjectFiles, hpkg, hfiles, hnpm]
  · simp [programAction, createPackageJson, createProjectFiles, hpkg, hfiles, hnpm]
  · simp [programAction, createPackageJson, createProjectFiles, hpkg, hfiles, hnpm]
  · intro d hd
    rw [hdr]
    refine List.mem_append_right _ (List.mem_append_right _ (List.mem_append_right _
      (List.mem_append_right _ ?_)))
    cases hm : o.mkdirOk <;>
      simp [createProjectDirectory, mkdirRec, hm, List.mem_append, hd]
  · intro e he
    rw [hfl]
    exact List.mem_append_right _ (by simp [he])
  · rw [hfl]
    exact List.mem_append_right _ (by simp)
  · rw [hfl]
    exact List.mem_append_right _ (by simp)
  · rw [hfl]
    exact List.mem_append_right _ (by simp)
  · rw [hfl]
    exact List.mem_append_right _ (by simp)
  · intro hg hi
    rw [hfl]
    exact List.mem_append_left _ (by simp [hg, hi])

/-- C4 witness: a concrete run in which only dependency installation fails. -/
theorem npm_failure_exit1_no_rollback_witness :
    (programAction ⟨true, true, true, true, true, false⟩ emptyFS ["home", "user"]
        "my-next-app" Template.defaultTypeScript).exitCode = 1 :=
  (npm_failure_exit1_no_rollback ⟨true, true, true, true, true, false⟩ emptyFS
    ["home", "user"] "my-next-app" Template.defaultTypeScript rfl rfl rfl).1

/-- C7: a run into an arbitrary pre-existing filesystem state — in
particular one already holding a non-empty target directory from an earlier
run with the same name — succeeds without any confirmation or collision
guard: directory creation is idempotent (existing directories survive, the
target is (re-)ensured), and each of the five writes creates or overwrites
its file, the newest content verbatim. -/
theorem rerun_overwrites_without_guard (o : Oracles) (fs0 : FS) (cwd : Path)
    (projectName : String) (t : Template) (hm : o.mkdirOk = true)
    (hpkg : o.pkgWriteOk = true) (hfiles : o.filesOk = true)
    (hgit : o.gitInitOk = true) (hign : o.gitignoreOk = true)
    (hnpm : o.npmOk = true) :
    (programAction o fs0 cwd projectName t).success = true ∧
    (programAction o fs0 cwd projectName t).exitCode = 0 ∧
    (∀ d, d ∈ fs0.dirs → d ∈ (programAction o fs0 cwd projectName t).fs.dirs) ∧
    lookupFile (programAction o fs0 cwd projectName t).fs
        (pathJoin cwd projectName ++ ["package.json"]) =
      some (.pkg (packageJsonFor projectName)) ∧
    lookupFile (programAction o fs0 cwd projectName t).fs
        (pathJoin cwd projectName ++ ["src", "app", "layout.tsx"]) =
      some (.text layoutContent) ∧
    lookupFile (programAction o fs0 cwd projectName t).fs
        (pathJoin cwd projectName ++ ["src", "app", "page.tsx"]) =
      some (.text pageContent) ∧
    lookupFile (programAction o fs0 cwd projectName t).fs
        (pathJoin cwd projectName ++ ["src", "styles", "globals.css"]) =
      some (.text globalCssContent) ∧
    lookupFile (programAction o fs0 cwd projectName t).fs
        (pathJoin cwd projectName ++ [".gitignore"]) =
      some (.text gitignoreContent) := by
  have hdr := programAction_dirs o fs0 cwd projectName t hpkg hfiles
  refine ⟨?_, ?_, ?_, ?_, ?_, ?_, ?_, ?_⟩
  · simp [programAction, createPackageJson, createProjectFiles, hpkg, hfiles, hnpm]
  · simp [programAction, createPackageJson, createProjectFiles, hpkg, hfiles, hnpm]
  · intro d hd
    rw [hdr]
    refine List.mem_append_right _ (List.mem_append_right _ (List.mem_append_right _
      (List.mem_append_right _ ?_)))
    simp [createProjectDirectory, mkdirRec, hm, List.mem_append, hd]
  all_goals
    simp [programAction, createPackageJson, createProjectFiles, initializeGit,
      directories, pathJoin, hpkg, hfiles, hgit, hign, hnpm,
      lookupFile, writeFileFS, mkdirRec, List.find?]

/-- C7 witness: the second of two identical back-to-back runs, into the
non-empty directory left by the first, still overwrites the manifest. -/
theorem rerun_overwrites_without_guard_witness :
    lookupFile (programAction allOk
        (programAction allOk emptyFS ["home", "user"] "my-next-app"
          Template.defaultTypeScript).fs
        ["home", "user"] "my-next-app" Template.defaultTypeScript).fs
        (pathJoin ["home", "user"] "my-next-app" ++ ["package.json"]) =
      some (.pkg (packageJsonFor "my-next-app")) :=
  (rerun_overwrites_without_guard allOk
    (programAction allOk emptyFS ["home", "user"] "my-next-app"
      Template.defaultTypeScript).fs
    ["home", "user"] "my-next-app" Template.defaultTypeScript
    rfl rfl rfl rfl rfl rfl).2.2.2.1

/-- C8: the ignore-file write sits after `git init` inside the same caught
scope, so whenever `git init` throws, `initializeGit` leaves the filesystem
untouched (no `.gitignore` is written, the error is logged), yet the run can
still terminate in the success state — a successful run need not contain a
`.gitignore`. -/
theorem gitignore_only_after_git_succeeds (o : Oracles) (fs0 fs : FS) (cwd : Path)
    (projectName : String) (t : Template) (projectPath : Path)
    (hg : o.gitInitOk = false) (hpkg : o.pkgWriteOk = true)
    (hfiles : o.filesOk = true) (hnpm : o.npmOk = true)
    (h0 : lookupFile fs0 (pathJoin cwd projectName ++ [".gitignore"]) = none) :
    initializeGit o fs projectPath = (fs, true) ∧
    (programAction o fs0 cwd projectName t).success = true ∧
    (programAction o fs0 cwd projectName t).exitCode = 0 ∧
    lookupFile (programAction o fs0 cwd projectName t).fs
      (pathJoin cwd projectName ++ [".gitignore"]) = none := by
  refine ⟨by simp [initializeGit, hg], ?_, ?_, ?_⟩
  · simp [programAction, createPackageJson, createProjectFiles, initializeGit,
      hpkg, hfiles, hnpm, hg]
  · simp [programAction, createPackageJson, createProjectFiles, initializeGit,
      hpkg, hfiles, hnpm, hg]
  · have hfl := programAction_files o fs0 cwd projectName t hpkg hfiles
    simp only [lookupFile] at h0 ⊢
    rw [hfl, if_neg (by simp [hg] : ¬(o.gitInitOk = true ∧ o.gitignoreOk = true)),
      List.nil_append]
    rw [List.find?_cons_of_neg _ (by simp), List.find?_cons_of_neg _ (by simp),
      List.find?_cons_of_neg _ (by simp), List.find?_cons_of_neg _ (by simp)]
    exact h0

/-- C8 witness: a concrete successful run whose `git init` failed and which
ends with no `.gitignore` on disk. -/
theorem gitignore_only_after_git_succeeds_witness :
    (programAction ⟨true, true, true, false, true, true⟩ emptyFS ["home", "user"]
        "my-next-app" Template.defaultTypeScript).success = true ∧
    lookupFile (programAction ⟨true, true, true, false, true, true⟩ emptyFS
        ["home", "user"] "my-next-app" Template.defaultTypeScript).fs
      (pathJoin ["home", "user"] "my-next-app" ++ [".gitignore"]) = none :=
  ⟨(gitignore_only_after_git_succeeds ⟨true, true, true, false, true, true⟩ emptyFS
      emptyFS ["home", "user"] "my-next-app" Template.defaultTypeScript []
      rfl rfl rfl rfl rfl).2.1,
   (gitignore_only_after_git_succeeds ⟨true, true, true, false, true, true⟩ emptyFS
      emptyFS ["home", "user"] "my-next-app" Template.defaultTypeScript []
      rfl rfl rfl rfl rfl).2.2.2⟩

/-! ### C1: helper lemmas about prefixes of short concrete suffixes -/

theorem prefixCasesSingle {α : Type} {a : α} {r : List α} (h : r <+: [a]) :
    r = [] ∨ r = [a] := by
  rcases r with _ | ⟨x, r⟩
  · exact Or.inl rfl
  · rw [List.cons_prefix_cons] at h
    obtain ⟨rfl, h2⟩ := h
    rw [List.prefix_nil] at h2
    exact Or.inr (by rw [h2])

theorem prefixCasesPair {α : Type} {a b : α} {r : List α} (h : r <+: [a, b]) :
    r = [] ∨ r = [a] ∨ r = [a, b] := by
  rcases r with _ | ⟨x, r⟩
  · exact Or.inl rfl
  · rw [List.cons_prefix_cons] at h
    obtain ⟨rfl, h2⟩ := h
    rcases prefixCasesSingle h2 with h3 | h3 <;> rw [h3]
    · exact Or.inr (Or.inl rfl)
    · exact Or.inr (Or.inr rfl)

/-- A strict descendant of `t` that is a prefix of `t ++ [a, b]` is
`t ++ [a]` or `t ++ [a, b]`. -/
theorem descendOfPair {t p : Path} {a b : String} (ht : t <+: p) (hne : p ≠ t)
    (h : p <+: t ++ [a, b]) : p = t ++ [a] ∨ p = t ++ [a, b] := by
  obtain ⟨r, rfl⟩ := ht
  have hr : r <+: [a, b] := (List.prefix_append_right_inj t).mp h
  rcases prefixCasesPair hr with h3 | h3 | h3
  · exact absurd (by rw [h3, List.append_nil]) hne
  · exact Or.inl (by rw [h3])
  · exact Or.inr (by rw [h3])

/-- A strict descendant of `t` that is a prefix of `t ++ [a]` is `t ++ [a]`. -/
theorem descendOfSingle {t p : Path} {a : String} (ht : t <+: p) (hne : p ≠ t)
    (h : p <+: t ++ [a]) : p = t ++ [a] := by
  obtain ⟨r, rfl⟩ := ht
  have hr : r <+: [a] := (List.prefix_append_right_inj t).mp h
  rcases prefixCasesSingle hr with h3 | h3
  · exact absurd (by rw [h3, List.append_nil]) hne
  · rw [h3]

/-- C1 counterexample: a run in which every effect succeeds except
`git init` terminates in the success state (message printed, exit code 0),
yet the target directory holds no `.gitignore` — so a success-state run does
not always contain exactly the fixed file set of section 6. -/
theorem success_state_without_gitignore :
    (programAction ⟨true, true, true, false, true, true⟩ emptyFS ["home", "user"]
        "my-next-app" Template.defaultTypeScript).success = true ∧
    (programAction ⟨true, true, true, false, true, true⟩ emptyFS ["home", "user"]
        "my-next-app" Template.defaultTypeScript).exitCode = 0 ∧
    lookupFile (programAction ⟨true, true, true, false, true, true⟩ emptyFS
        ["home", "user"] "my-next-app" Template.defaultTypeScript).fs
      ["home", "user", "my-next-app", ".gitignore"] = none := by
  refine ⟨rfl, rfl, ?_⟩
  decide

/-- C1 (amended): for every accepted project name (nonempty, no separator),
after a run out of a fresh state that terminates in the success state and in
which the version-control step also succeeded, a directory named after the
project exists directly under the invocation directory; its strict
descendants among the directories are exactly `public`, `src`, `src/app`,
`src/components` and `src/styles`; and the files written are exactly
`package.json`, `.gitignore`, `src/app/layout.tsx`, `src/app/page.tsx` and
`src/styles/globals.css` with their fixed contents. -/
theorem successful_run_scaffold_exact (cwd : Path) (projectName : String)
    (t : Template) (hname : pathSegments projectName = [projectName]) :
    (programAction allOk emptyFS cwd projectName t).success = true ∧
    (programAction allOk emptyFS cwd projectName t).exitCode = 0 ∧
    cwd ++ [projectName] ∈ (programAction allOk emptyFS cwd projectName t).fs.dirs ∧
    (∀ p, cwd ++ [projectName] <+: p → p ≠ cwd ++ [projectName] →
      (p ∈ (programAction allOk emptyFS cwd projectName t).fs.dirs ↔
        p ∈ [cwd ++ [projectName] ++ ["public"],
             cwd ++ [projectName] ++ ["src"],
             cwd ++ [projectName] ++ ["src", "app"],
             cwd ++ [projectName] ++ ["src", "components"],
             cwd ++ [projectName] ++ ["src", "styles"]])) ∧
    (programAction allOk emptyFS cwd projectName t).fs.files =
      [(cwd ++ [projectName] ++ [".gitignore"], .text gitignoreContent),
       (cwd ++ [projectName] ++ ["src", "styles", "globals.css"],
         .text globalCssContent),
       (cwd ++ [projectName] ++ ["src", "app", "page.tsx"], .text pageContent),
       (cwd ++ [projectName] ++ ["src", "app", "layout.tsx"], .text layoutContent),
       (cwd ++ [projectName] ++ ["package.json"],
         .pkg (packageJsonFor projectName))] := by
  have htgt : pathJoin cwd projectName = cwd ++ [projectName] := by
    simp [pathJoin, hname]
  have hdr := programAction_dirs allOk emptyFS cwd projectName t rfl rfl
  have hfl := programAction_files allOk emptyFS cwd projectName t rfl rfl
  have hcd : (createProjectDirectory allOk emptyFS (pathJoin cwd projectName)).1.dirs =
      pathPrefixes (pathJoin cwd projectName) := by
    simp [createProjectDirectory, allOk, mkdirRec, emptyFS]
  rw [hcd] at hdr
  rw [htgt] at hdr hfl
  refine ⟨rfl, rfl, ?_, ?_, ?_⟩
  · rw [hdr]
    refine List.mem_append_right _ (List.mem_append_right _ (List.mem_append_right _
      (List.mem_append_right _ ?_)))
    exact mem_pathPrefixes.mpr ⟨List.prefix_rfl, by simp⟩
  · intro p hp hne
    rw [hdr]
    simp only [List.mem_append, mem_pathPrefixes]
    constructor
    · rintro (⟨h1, -⟩ | ⟨h1, -⟩ | ⟨h1, -⟩ | ⟨h1, -⟩ | ⟨h1, -⟩)
      · rcases descendOfPair hp hne h1 with h2 | h2 <;> simp [h2]
      · rcases descendOfPair hp hne h1 with h2 | h2 <;> simp [h2]
      · rcases descendOfPair hp hne h1 with h2 | h2 <;> simp [h2]
      · rw [descendOfSingle hp hne h1]; simp
      · exact absurd (h1.eq_of_length (h1.length_le.antisymm hp.length_le)) hne
    · intro hmem
      simp only [List.mem_cons, List.not_mem_nil, or_false] at hmem
      rcases hmem with rfl | rfl | rfl | rfl | rfl
      · exact Or.inr (Or.inr (Or.inr (Or.inl ⟨List.prefix_rfl, by simp⟩)))
      · exact Or.inl ⟨⟨["styles"], by simp⟩, by simp⟩
      · exact Or.inr (Or.inr (Or.inl ⟨List.prefix_rfl, by simp⟩))
      · exact Or.inr (Or.inl ⟨List.prefix_rfl, by simp⟩)
      · exact Or.inl ⟨List.prefix_rfl, by simp⟩
  · rw [hfl]
    simp [allOk, emptyFS]

/-- C1 (amended) witness: the fully successful run at the default name
writes exactly the five files. -/
theorem successful_run_scaffold_exact_witness :
    (programAction allOk emptyFS ["home", "user"] "my-next-app"
        Template.defaultTypeScript).fs.files =
      [(["home", "user"] ++ ["my-next-app"] ++ [".gitignore"],
         .text gitignoreContent),
       (["home", "user"] ++ ["my-next-app"] ++ ["src", "styles", "globals.css"],
         .text globalCssContent),
       (["home", "user"] ++ ["my-next-app"] ++ ["src", "app", "page.tsx"],
         .text pageContent),
       (["home", "user"] ++ ["my-next-app"] ++ ["src", "app", "layout.tsx"],
         .text layoutContent),
       (["home", "user"] ++ ["my-next-app"] ++ ["package.json"],
         .pkg (packageJsonFor "my-next-app"))] :=
  (successful_run_scaffold_exact ["home", "user"] "my-next-app"
    Template.defaultTypeScript (by decide)).2.2.2.2

end SetMyStack
